import Mathlib

/-!
Verification of the scan/cache/filter pipeline and the advancement state
machine of the `metadata_slideshow_helper` integration.

The definitions below are a shallow embedding of
`custom_components/metadata_slideshow_helper/scanner.py` and of the
advancement part of
`custom_components/metadata_slideshow_helper/__init__.py`
(`SlideshowCoordinator.async_update_data`).  Python integers are `Int`,
Python lists are `List`, timestamps (Python floats, used only with
subtraction and ordering) are `ℚ`, and code that can raise returns
`Except String`.
-/

namespace MSH

/-- `ImageMeta` dataclass from `scanner.py` (lines 27-32): one discovered
file with its path, tags, rating and optional capture date. -/
structure ImageMeta where
  path : String
  tags : List String
  rating : Int
  date : Option String
deriving DecidableEq

/-- `ScanResult` dataclass from `scanner.py` (lines 35-43): result from
scanning and filtering media.  (These four fields are all it has.) -/
structure ScanResult where
  discovered : List ImageMeta
  matching : List ImageMeta
  discovered_count : Nat
  matching_count : Nat
deriving DecidableEq

/-- Python's `str.lower()`, modelled per character (the tags and
extensions involved are ASCII, where this matches CPython). -/
def pyLower (s : String) : String := ⟨s.data.map Char.toLower⟩

/-- Python's `x or y` on integers: `x` when `x` is truthy (nonzero),
otherwise `y`.  Used for `(item.rating or 0)` and `(min_rating or 0)`. -/
def pyIntOr (x y : Int) : Int :=
  if x = 0 then y else x

/-- Loop body of `apply_filters` (`scanner.py` lines 208-218): walk the
items, `continue` past any item failing one of the three guards, append
the rest in order.  `inc` and `exc` are the already-lowercased tag sets
(modelled as lists queried only through membership and emptiness, which
is all the code asks of the Python sets); `item.tags.map pyLower`
is the loop's `tset`. -/
def applyFiltersGo (inc exc : List String) (min_rating : Int) :
    List ImageMeta → List ImageMeta
  | [] => []
  | item :: rest =>
    if !inc.isEmpty && !(inc.all fun t => (item.tags.map pyLower).contains t) then
      applyFiltersGo inc exc min_rating rest
    else if !exc.isEmpty && ((item.tags.map pyLower).any fun t => exc.contains t) then
      applyFiltersGo inc exc min_rating rest
    else if pyIntOr item.rating 0 < pyIntOr min_rating 0 then
      applyFiltersGo inc exc min_rating rest
    else
      item :: applyFiltersGo inc exc min_rating rest

/-- `apply_filters` from `scanner.py` (lines 189-218): filter discovered
images based on tags and rating criteria. -/
def apply_filters (discovered_items : List ImageMeta)
    (include_tags exclude_tags : List String) (min_rating : Int) :
    List ImageMeta :=
  let inc := include_tags.map pyLower
  let exc := exclude_tags.map pyLower
  applyFiltersGo inc exc min_rating discovered_items

/-- The three guards of the loop, as one acceptance boolean (an item is
kept iff none of the three `continue` guards fires). -/
def goAccepts (inc exc : List String) (mr : Int) (item : ImageMeta) : Bool :=
  !(!inc.isEmpty && !(inc.all fun t => (item.tags.map pyLower).contains t))
    && (!(!exc.isEmpty && ((item.tags.map pyLower).any fun t => exc.contains t))
    && !(pyIntOr item.rating 0 < pyIntOr mr 0))

/-- Acceptance predicate in the spec's own vocabulary: `include_tags`
is empty or (case-insensitively) a subset of the record's tags, the
record's tags do not (case-insensitively) meet `exclude_tags`, and the
rating is at least `min_rating`. -/
def specAccepts (include_tags exclude_tags : List String)
    (min_rating : Int) (item : ImageMeta) : Bool :=
  let tset := item.tags.map pyLower
  (include_tags.isEmpty || include_tags.all fun t => tset.contains (pyLower t))
    && !(exclude_tags.any fun t => tset.contains (pyLower t))
    && (min_rating ≤ item.rating)

theorem pyIntOr_zero (x : Int) : pyIntOr x 0 = x := by
  unfold pyIntOr; split <;> simp_all

theorem applyFiltersGo_eq_filter (inc exc : List String) (mr : Int)
    (l : List ImageMeta) :
    applyFiltersGo inc exc mr l = l.filter (goAccepts inc exc mr) := by
  induction l with
  | nil => rfl
  | cons item rest ih =>
    unfold applyFiltersGo
    rw [List.filter_cons]
    by_cases h1 : (!inc.isEmpty
        && !(inc.all fun t => (item.tags.map pyLower).contains t)) = true
    · rw [if_pos h1, ih]
      have hg : goAccepts inc exc mr item = false := by
        unfold goAccepts; rw [h1]; rfl
      rw [hg]; simp
    · have h1' : (!inc.isEmpty
          && !(inc.all fun t => (item.tags.map pyLower).contains t)) = false := by
        revert h1
        cases (!inc.isEmpty
          && !(inc.all fun t => (item.tags.map pyLower).contains t)) <;> simp
      rw [if_neg h1]
      by_cases h2 : (!exc.isEmpty
          && ((item.tags.map pyLower).any fun t => exc.contains t)) = true
      · rw [if_pos h2, ih]
        have hg : goAccepts inc exc mr item = false := by
          unfold goAccepts; rw [h1', h2]; rfl
        rw [hg]; simp
      · have h2' : (!exc.isEmpty
            && ((item.tags.map pyLower).any fun t => exc.contains t)) = false := by
          revert h2
          cases (!exc.isEmpty
            && ((item.tags.map pyLower).any fun t => exc.contains t)) <;> simp
        rw [if_neg h2]
        by_cases h3 : pyIntOr item.rating 0 < pyIntOr mr 0
        · rw [if_pos h3, ih]
          have hg : goAccepts inc exc mr item = false := by
            unfold goAccepts; rw [h1', h2', decide_eq_true h3]; rfl
          rw [hg]; simp
        · rw [if_neg h3, ih]
          have hg : goAccepts inc exc mr item = true := by
            unfold goAccepts; rw [h1', h2', decide_eq_false h3]; rfl
          rw [hg]; simp

theorem goAccepts_map_eq_spec (include_tags exclude_tags : List String)
    (mr : Int) (item : ImageMeta) :
    goAccepts (include_tags.map pyLower)
        (exclude_tags.map pyLower) mr item =
      specAccepts include_tags exclude_tags mr item := by
  unfold goAccepts specAccepts
  rw [Bool.eq_iff_iff, pyIntOr_zero, pyIntOr_zero]
  simp
  constructor
  · rintro ⟨ha, hb, hc⟩
    refine ⟨⟨ha, ?_⟩, hc⟩
    intro e he t ht hEq
    rcases hb with hb | hb
    · subst hb; exact absurd he (List.not_mem_nil e)
    · exact hb t ht e he hEq.symm
  · rintro ⟨⟨ha, hb⟩, hc⟩
    refine ⟨ha, Or.inr ?_, hc⟩
    intro t ht e he hEq
    exact hb e he t ht hEq.symm

/-- `apply_filters` is `List.filter` with the spec-side acceptance
predicate: shared bridge used by several theorems below. -/
theorem apply_filters_eq_filter (items : List ImageMeta)
    (include_tags exclude_tags : List String) (min_rating : Int) :
    apply_filters items include_tags exclude_tags min_rating =
      items.filter (specAccepts include_tags exclude_tags min_rating) := by
  unfold apply_filters
  rw [applyFiltersGo_eq_filter]
  congr 1
  funext item
  exact goAccepts_map_eq_spec include_tags exclude_tags min_rating item

/-- Sample record carrying both required tags and a 5-star rating. -/
def itemA : ImageMeta := ⟨"/media/a.jpg", ["Tag", "holiday"], 5, none⟩

/-- Sample record carrying an excluded tag. -/
def itemB : ImageMeta := ⟨"/media/b.jpg", ["bad"], 5, none⟩

/-- Record with a negative rating, as `_read_metadata` can produce from a
negative `xmp:Rating` value (no clamping anywhere in the code). -/
def itemNeg : ImageMeta := ⟨"/media/n.jpg", [], -1, none⟩

/-- C3: `apply_filters` accepts a record iff `include_tags` is empty or
case-insensitively a subset of the record's tags, the record's tags meet
none of `exclude_tags` case-insensitively, and the rating is at least
`min_rating`; the result is the order-preserving filter of its input by
that predicate, and the function is pure (it is a function of its
arguments only). -/
theorem apply_filters_semantics (items : List ImageMeta)
    (include_tags exclude_tags : List String) (min_rating : Int) :
    apply_filters items include_tags exclude_tags min_rating =
      items.filter (specAccepts include_tags exclude_tags min_rating) ∧
    ∀ item : ImageMeta,
      specAccepts include_tags exclude_tags min_rating item = true ↔
        ((include_tags = [] ∨ ∀ t ∈ include_tags,
            pyLower t ∈ item.tags.map pyLower) ∧
         (∀ t ∈ exclude_tags, pyLower t ∉ item.tags.map pyLower) ∧
         min_rating ≤ item.rating) := by
  refine ⟨apply_filters_eq_filter items include_tags exclude_tags min_rating, ?_⟩
  intro item
  unfold specAccepts
  simp
  tauto

/-- Witness for the C3 theorem at a concrete input. -/
theorem apply_filters_semantics_witness :
    apply_filters [itemA, itemB] ["Tag"] ["bad"] 3 =
      [itemA, itemB].filter (specAccepts ["Tag"] ["bad"] 3) :=
  (apply_filters_semantics [itemA, itemB] ["Tag"] ["bad"] 3).1

/-- C7 counterexample: with default criteria (empty tag lists,
`min_rating = 0`), a record holding a negative rating is dropped, so
`apply_filters` is not the identity on every input list. -/
theorem apply_filters_default_not_identity :
    ¬ (apply_filters [itemNeg] [] [] 0 = [itemNeg]) := by
  decide

/-- C7 (amended): `apply_filters` is idempotent for every criteria, and
applying the default criteria (empty `include_tags`/`exclude_tags`,
`min_rating = 0`) is the identity on every list whose records all have a
non-negative rating (a record with a negative rating — which the
unclamped metadata reader can produce — is dropped by `rating < 0`). -/
theorem apply_filters_idem_default_identity :
    (∀ (items : List ImageMeta) (inc exc : List String) (mr : Int),
      apply_filters (apply_filters items inc exc mr) inc exc mr =
        apply_filters items inc exc mr) ∧
    (∀ items : List ImageMeta, (∀ item ∈ items, 0 ≤ item.rating) →
      apply_filters items [] [] 0 = items) := by
  constructor
  · intro items inc exc mr
    rw [apply_filters_eq_filter, apply_filters_eq_filter, List.filter_filter]
    congr 1
    funext item
    exact Bool.and_self _
  · intro items h
    rw [apply_filters_eq_filter]
    apply List.filter_eq_self.mpr
    intro item hmem
    unfold specAccepts
    simp
    exact h item hmem

/-- Witness for the amended C7 theorem at a concrete input. -/
theorem apply_filters_idem_default_identity_witness :
    apply_filters [itemA] [] [] 0 = [itemA] :=
  apply_filters_idem_default_identity.2 [itemA] (by decide)

/-! ### Metadata extraction (`MediaScanner._read_metadata`, lines 132-186)

The Python function consults two libraries.  Their observable answers for
one file are modelled as data: what the XMP packet parse produced, what
`exifread` produced for the date, and what `piexif` produced for the
EXIF IFD0 `Rating` tag.  The control flow and assignments below follow
the source line by line. -/

/-- A Python value as it can appear in the parsed XMP dictionary: the
code distinguishes `int`, `str` and everything else via `isinstance`. -/
inductive PyVal where
  | int (n : Int)
  | str (s : String)
  | other
deriving DecidableEq

/-- `desc.get("subject", {}).get("Bag", {}).get("li")` outcome: a list
(each element already passed through `str`), a single string, or absent
(any non-list non-str value, including a missing key, leaves `tags`
unchanged). -/
inductive SubjBag where
  | list (ts : List String)
  | single (t : String)
  | absent
deriving DecidableEq

/-- The `Description` dict of a successfully parsed, non-empty XMP
packet: its subject bag and its `Rating` entry. -/
structure XmpDesc where
  subj : SubjBag
  rating : Option PyVal
deriving DecidableEq

/-- What the metadata libraries report for one file.  `xmp = none`
covers every branch in which the XMP pass contributes nothing: the
`Image.open`/`getxmp` call raising, a non-dict return, or an empty
`Description`. -/
structure FileProbe where
  xmp : Option XmpDesc
  inFileReadable : Bool
  exifDate : Option String
  piexifRating : Option PyVal
deriving DecidableEq

/-- Python `int(v)` under `contextlib.suppress(ValueError)`, attempted
only for `int` and `str` instances: `none` means the assignment to
`rating` is skipped. -/
def pyInt? : PyVal → Option Int
  | .int n => some n
  | .str s => s.toInt?
  | .other => none

/-- `os.path.splitext(path)[1]`: the suffix of the basename starting at
its last dot, with leading dots of the basename not starting an
extension. -/
def splitextExt (path : String) : String :=
  let base := (path.data.reverse.takeWhile fun c => c ≠ '/').reverse
  let stripped := base.dropWhile fun c => c = '.'
  let revExt := stripped.reverse.takeWhile fun c => c ≠ '.'
  if revExt.length = stripped.length then ⟨[]⟩
  else ⟨'.' :: revExt.reverse⟩

/-- Tags produced by the XMP pass (`scanner.py` lines 146-151). -/
def xmpTags : Option XmpDesc → List String
  | none => []
  | some desc =>
    match desc.subj with
    | .list ts => ts
    | .single t => [t]
    | .absent => []

/-- Rating produced by the XMP pass (`scanner.py` lines 153-157),
starting from the initial `rating = 0`. -/
def xmpRating : Option XmpDesc → Int
  | none => 0
  | some desc =>
    match desc.rating with
    | some v =>
      match pyInt? v with
      | some n => n
      | none => 0
    | none => 0

/-- The integer the piexif pass would assign (`scanner.py` lines
178-184): the EXIF IFD0 `Rating` value when it is an `int` instance,
otherwise nothing (absent key, non-int value, or piexif raising). -/
def piexifInt? (probe : FileProbe) : Option Int :=
  match probe.piexifRating with
  | some (.int n) => some n
  | _ => none

/-- `MediaScanner._read_metadata` (`scanner.py` lines 132-186). -/
def _read_metadata (path : String) (probe : FileProbe) : ImageMeta :=
  let tags := xmpTags probe.xmp
  let rating := xmpRating probe.xmp
  let date : Option String := none
  let ext := pyLower (splitextExt path)
  if ext = ".jpg" ∨ ext = ".jpeg" then
    if !probe.inFileReadable then
      ⟨path, tags, rating, date⟩
    else
      let date := probe.exifDate
      let rating :=
        match piexifInt? probe with
        | some n => n
        | none => rating
      ⟨path, tags, pyIntOr rating 0, date⟩
  else
    ⟨path, tags, pyIntOr rating 0, date⟩

/-- Probe of a JPEG whose XMP packet carries `Rating` 5 but whose EXIF
IFD0 `Rating` tag carries 3. -/
def probeXmp5Exif3 : FileProbe :=
  { xmp := some { subj := .absent, rating := some (.int 5) }
    inFileReadable := true
    exifDate := none
    piexifRating := some (.int 3) }

/-- Probe of a JPEG whose XMP packet carries `Rating` 7 and which has no
EXIF rating. -/
def probeXmp7 : FileProbe :=
  { xmp := some { subj := .absent, rating := some (.int 7) }
    inFileReadable := true
    exifDate := none
    piexifRating := none }

/-- C6 counterexample: on a JPEG whose XMP pass set the non-zero rating
5, an EXIF IFD0 `Rating` of 3 nevertheless changes the record's rating
to 3 — the EXIF pass overwrites unconditionally rather than only when
XMP found nothing. -/
theorem read_metadata_exif_overrides_xmp :
    xmpRating probeXmp5Exif3.xmp = 5 ∧
    (_read_metadata "/media/a.jpg" probeXmp5Exif3).rating = 3 ∧
    (3 : Int) ≠ 5 := by
  refine ⟨rfl, ?_, by decide⟩
  decide

/-- C6 (amended): for a readable JPEG, whenever piexif reports an
integer EXIF IFD0 `Rating`, that value replaces the XMP-derived rating
unconditionally (last pass wins, with `x or 0` mapping only 0 to 0);
the XMP-derived rating survives exactly when the EXIF field is absent
or not an integer. -/
theorem read_metadata_rating_precedence (path : String) (probe : FileProbe)
    (hext : pyLower (splitextExt path) = ".jpg" ∨
            pyLower (splitextExt path) = ".jpeg")
    (hread : probe.inFileReadable = true) :
    (∀ n : Int, piexifInt? probe = some n →
      (_read_metadata path probe).rating = n) ∧
    (piexifInt? probe = none →
      (_read_metadata path probe).rating = xmpRating probe.xmp) := by
  constructor
  · intro n hn
    unfold _read_metadata
    rw [if_pos hext, hread]
    simp [hn, pyIntOr_zero]
  · intro hn
    unfold _read_metadata
    rw [if_pos hext, hread]
    simp [hn, pyIntOr_zero]

/-- Witness for the amended C6 theorem at a concrete input. -/
theorem read_metadata_rating_precedence_witness :
    (_read_metadata "/media/a.jpg" probeXmp5Exif3).rating = 3 :=
  (read_metadata_rating_precedence "/media/a.jpg" probeXmp5Exif3
    (by decide) (by decide)).1 3 (by decide)

/-- C8 counterexample: a JPEG whose XMP `Rating` is 7 yields a record
with rating 7 — outside the claimed range `[0, 5]` (the code never
clamps). -/
theorem read_metadata_rating_unbounded :
    (_read_metadata "/media/a.jpg" probeXmp7).rating = 7 ∧
    ¬ ((_read_metadata "/media/a.jpg" probeXmp7).rating ≤ 5) := by
  constructor <;> decide

/-- C8 (amended): the record rating is an integer that defaults to 0 —
whenever the XMP pass supplies no non-zero rating and the EXIF pass
supplies no non-zero integer rating, the record's rating is 0 — but any
integer a pass does supply is stored unvalidated, without clamping to
`[0, 5]`. -/
theorem read_metadata_rating_default_zero (path : String) (probe : FileProbe)
    (hx : xmpRating probe.xmp = 0)
    (hp : piexifInt? probe = none ∨ piexifInt? probe = some 0) :
    (_read_metadata path probe).rating = 0 := by
  unfold _read_metadata
  by_cases hext : (pyLower (splitextExt path) = ".jpg" ∨
      pyLower (splitextExt path) = ".jpeg")
  · rw [if_pos hext]
    cases hread : probe.inFileReadable with
    | false => simpa using hx
    | true =>
      rcases hp with hp | hp
      · simp [hp, hx, pyIntOr_zero]
      · simp [hp, pyIntOr]
  · rw [if_neg hext]
    simpa [pyIntOr_zero] using hx

/-- Witness for the amended C8 theorem at a concrete input. -/
theorem read_metadata_rating_default_zero_witness :
    (_read_metadata "/media/plain.png"
      ⟨none, true, none, none⟩).rating = 0 :=
  read_metadata_rating_default_zero "/media/plain.png"
    ⟨none, true, none, none⟩ (by decide) (Or.inl (by decide))

/-! ### Directory scanning and caching (`MediaScanner`, lines 45-130) -/

/-- One directory entry under a root as the scan observes it: its path,
whether `Path.is_file()` holds for it (a broken symlink is not a file),
whether `os.access(p, R_OK)` holds, what the metadata libraries report
for it, and whether `_read_metadata` raises on it (in which case `scan`
appends a default record instead, lines 127-129). -/
structure FileEntry where
  path : String
  isFile : Bool
  readable : Bool
  probe : FileProbe
  readRaises : Bool
deriving DecidableEq

/-- One configured root: whether `Path(root).is_dir()` holds, and the
dentries beneath it in traversal order; `rglob(f"*{ext}")` yields the
entries whose path ends in `ext`. -/
structure RootDir where
  is_dir : Bool
  entries : List FileEntry
deriving DecidableEq

/-- `SUPPORTED_EXT` from `scanner.py` line 21, in the literal order of
the set display (Python set iteration order only permutes `discovered`,
which no claim depends on). -/
def SUPPORTED_EXT : List String := [".jpg", ".jpeg", ".png"]

/-- The per-root loop body of `MediaScanner.scan` (lines 111-129):
skip a missing or non-directory root; per supported extension, per
globbed file: silently skip entries that are not readable regular
files, otherwise append the metadata record (or the default record when
reading raises). -/
def scanRoot (r : RootDir) : List ImageMeta :=
  if !r.is_dir then [] else
  SUPPORTED_EXT.flatMap fun ext =>
    (r.entries.filter fun e => ext.data.isSuffixOf e.path.data).filterMap fun e =>
      if e.isFile && e.readable then
        some (if e.readRaises then ⟨e.path, [], 0, none⟩
              else _read_metadata e.path e.probe)
      else none

/-- `MediaScanner.scan` (lines 108-130): per-root results accumulated in
root order. -/
def scan (roots : List RootDir) : List ImageMeta :=
  roots.flatMap scanRoot

/-- Spec-side count for C5: the regular files encountered under all
(existing) roots. -/
def totalRegularFiles (roots : List RootDir) : Nat :=
  (roots.flatMap fun r =>
    if r.is_dir then r.entries.filter (fun e => e.isFile) else []).length

/-- A readable JPEG with no embedded metadata. -/
def entryJpg : FileEntry := ⟨"/m/a.jpg", true, true, ⟨none, true, none, none⟩, false⟩

/-- A readable regular file with an unsupported extension. -/
def entryTxt : FileEntry := ⟨"/m/b.txt", true, true, ⟨none, true, none, none⟩, false⟩

/-- A permission-denied JPEG (regular file, not readable). -/
def entryDenied : FileEntry := ⟨"/m/c.jpg", true, false, ⟨none, true, none, none⟩, false⟩

/-- A directory holding one readable image, one unsupported file and one
unreadable image. -/
def rootC5 : RootDir := ⟨true, [entryJpg, entryTxt, entryDenied]⟩

/-- C5: the claimed invariant
`discovered + failed_count + non_image_file_count = total regular files`
cannot hold: `ScanResult` carries no `failed_count` or
`non_image_file_count` field at all, `scan` silently skips unreadable
files and never even enumerates files with unsupported extensions.  On a
root with one readable image, one `.txt` file and one permission-denied
image, `scan` discovers exactly 1 record while 3 regular files were
encountered — and there is no counter anywhere making up the
difference.  (The repo's own test
`test_diagnostic_metrics_with_broken_and_non_images` asserts the
invariant of the claim.) -/
theorem scan_has_no_diagnostic_counters :
    (scan [rootC5]).length = 1 ∧ totalRegularFiles [rootC5] = 3 := by
  constructor <;> rfl

/-- `MediaScanner` instance state (`scanner.py` lines 45-62), together
with the directory trees its configured root paths denote at scan time
(the code stores the root path strings and reads the filesystem when
`scan` runs; here the snapshot rides along). -/
structure MediaScanner where
  roots : List RootDir
  include_tags : List String
  exclude_tags : List String
  min_rating : Int
  rescan_interval : ℚ
  cached_items : List ImageMeta
  last_scan : ℚ
  last_warn_time : ℚ
  warn_cooldown : ℚ
deriving DecidableEq

/-- `MediaScanner.scan_and_filter` (lines 64-106).  Returns the
`ScanResult`, the updated instance state, and whether the branch
performing a fresh directory scan was taken (the observable "performed
a new directory scan" of C2). -/
def scan_and_filter (s : MediaScanner) (current_time : ℚ) :
    ScanResult × MediaScanner × Bool :=
  let rescanNeeded :=
    s.cached_items.isEmpty
      || decide (current_time - s.last_scan ≥ s.rescan_interval)
  let discovered_items := if rescanNeeded then scan s.roots else s.cached_items
  let s₁ :=
    if rescanNeeded then
      { s with cached_items := discovered_items, last_scan := current_time }
    else s
  let matching_items :=
    apply_filters discovered_items s.include_tags s.exclude_tags s.min_rating
  let s₂ :=
    if matching_items.isEmpty
        && decide (current_time - s₁.last_warn_time ≥ s₁.warn_cooldown) then
      { s₁ with last_warn_time := current_time }
    else if !matching_items.isEmpty then
      { s₁ with last_warn_time := 0 }
    else s₁
  (⟨discovered_items, matching_items,
      discovered_items.length, matching_items.length⟩,
    s₂, rescanNeeded)

/-- A scanner whose last scan (60 seconds ago, well within the
1000-second TTL) produced an empty result. -/
def scannerEmptyCache : MediaScanner :=
  ⟨[], [], [], 0, 1000, [], 100, 0, 3600⟩

/-- C2: an empty stored scan result is not treated as a valid cache
entry: `if not self.cached_items or ...` makes every call with an empty
cached list rescan the directories, even though
`now - last_scan < rescan_interval`.  (Moreover `ScanResult` has no
`failed_count`/`non_image_file_count` fields to be preserved — the
repo's regression test `test_diagnostic_metrics_caching` reads them and
cannot run against this code.) -/
theorem scan_and_filter_empty_entry_rescans :
    (scan_and_filter scannerEmptyCache 160).2.2 = true ∧
    (160 : ℚ) - scannerEmptyCache.last_scan < scannerEmptyCache.rescan_interval := by
  constructor
  · rfl
  · show (160 : ℚ) - 100 < 1000
    norm_num

/-- C10: every `ScanResult` returned by `scan_and_filter` is internally
consistent: `matching` is exactly `apply_filters` of `discovered` under
the scanner's configured criteria, the two counts equal the lengths of
their lists, and `matching` is an order-preserving sublist of
`discovered`. -/
theorem scan_and_filter_result_consistent (s : MediaScanner) (now : ℚ) :
    (scan_and_filter s now).1.matching =
      apply_filters (scan_and_filter s now).1.discovered
        s.include_tags s.exclude_tags s.min_rating ∧
    (scan_and_filter s now).1.matching_count =
      (scan_and_filter s now).1.matching.length ∧
    (scan_and_filter s now).1.discovered_count =
      (scan_and_filter s now).1.discovered.length ∧
    (scan_and_filter s now).1.matching.Sublist
      (scan_and_filter s now).1.discovered := by
  refine ⟨?_, ?_, ?_, ?_⟩
  · simp only [scan_and_filter]
  · simp only [scan_and_filter]
  · simp only [scan_and_filter]
  · simp only [scan_and_filter]
    rw [apply_filters_eq_filter]
    exact List.filter_sublist _

/-! ### Advancement (`SlideshowCoordinator.async_update_data`,
`__init__.py` lines 52-109).  The scan/filter prelude of the method is
`scan_and_filter` above; the advancement acts on the resulting
`matching` list, so the embedding takes that list as input. -/

/-- Modelled from the spec: `const.py` (the `AdvanceMode` enum) is not
under `src/`; the spec names exactly two advancement modes.  The enum is
modelled by its value strings — the sequential mode value. -/
def SEQUENTIAL : String := "sequential"

/-- Modelled from the spec: the smart-random advancement mode value of
the `AdvanceMode` enum from `const.py` (not under `src/`). -/
def SMART_RANDOM : String := "smart_random"

/-- `AdvancementState` dataclass (`__init__.py` lines 25-31). -/
structure AdvancementState where
  advance_index : Int
  last_advance : ℚ
  smart_random_counter : Int
deriving DecidableEq

/-- Python list subscripting `matching_items[i]`: negative indices count
from the end; anything out of range raises `IndexError`. -/
def pyListGet (l : List ImageMeta) (i : Int) : Except String ImageMeta :=
  if h : 0 ≤ i ∧ i.toNat < l.length then
    .ok (l.get ⟨i.toNat, h.2⟩)
  else if h2 : i < 0 ∧ 0 ≤ i + l.length ∧ (i + l.length).toNat < l.length then
    .ok (l.get ⟨(i + l.length).toNat, h2.2.2⟩)
  else
    .error "IndexError"

/-- Lines 73-94: when matching items exist and the interval has elapsed,
dispatch on the mode (smart-random bumps its counter and may jump to
`rand`, an unknown mode raises `ValueError`), then advance
`advance_index` by one modulo the list length and stamp `last_advance`. -/
def tickAdvance (st : AdvancementState) (matching_items : List ImageMeta)
    (current_time advance_interval : ℚ) (advance_mode : String)
    (smart_random_sequence_length : Int) (rand : Int) :
    Except String AdvancementState :=
  if !matching_items.isEmpty
      && decide (current_time - st.last_advance ≥ advance_interval) then
    (if advance_mode = SMART_RANDOM then
      if st.smart_random_counter + 1 ≥ smart_random_sequence_length then
        Except.ok { st with advance_index := rand, smart_random_counter := 0 }
      else
        Except.ok { st with
          smart_random_counter := st.smart_random_counter + 1 }
    else if advance_mode ≠ SEQUENTIAL then
      Except.error ("Unknown advance_mode: " ++ advance_mode
        ++ ". Expected sequential or smart_random.")
    else
      Except.ok st).map fun st2 =>
      { st2 with
        advance_index := (st2.advance_index + 1) % (matching_items.length : Int),
        last_advance := current_time }
  else
    Except.ok st

/-- Lines 96-108: clamp the stored index modulo the current list length
before reading, then return the updated state, `DATA_CURRENT_PATH` and
`DATA_ADVANCE_INDEX`. -/
def tickRead (st : AdvancementState) (matching_items : List ImageMeta) :
    Except String (AdvancementState × Option String × Int) :=
  if !matching_items.isEmpty then
    (pyListGet matching_items
        (st.advance_index % (matching_items.length : Int))).map fun item =>
      ({ st with advance_index :=
          st.advance_index % (matching_items.length : Int) },
        some item.path,
        st.advance_index % (matching_items.length : Int))
  else
    Except.ok (st, none, st.advance_index)

/-- One advancement tick (`__init__.py` lines 67-108) on an
already-computed matching list.  `rand` is the oracle for
`random.randint(0, len(matching_items) - 1)`: a uniformly distributed
integer in `[0, len - 1]`. -/
def tick (st : AdvancementState) (matching_items : List ImageMeta)
    (current_time advance_interval : ℚ) (advance_mode : String)
    (smart_random_sequence_length : Int) (rand : Int) :
    Except String (AdvancementState × Option String × Int) :=
  (tickAdvance st matching_items current_time advance_interval advance_mode
    smart_random_sequence_length rand).bind fun st1 =>
    tickRead st1 matching_items

theorem natCast_length_pos {l : List ImageMeta} (h : l ≠ []) :
    0 < (l.length : Int) := by
  have := List.length_pos.mpr h
  exact_mod_cast this

theorem tickRead_ok (st : AdvancementState) (matching : List ImageMeta)
    (h : matching ≠ []) :
    ∃ p : String,
      tickRead st matching =
        .ok ({ st with advance_index :=
                 st.advance_index % (matching.length : Int) },
          some p, st.advance_index % (matching.length : Int)) := by
  have hlen : 0 < (matching.length : Int) := natCast_length_pos h
  have h0 : 0 ≤ st.advance_index % (matching.length : Int) :=
    Int.emod_nonneg _ (by omega)
  have h1 : st.advance_index % (matching.length : Int) < (matching.length : Int) :=
    Int.emod_lt_of_pos _ hlen
  have h2 : (st.advance_index % (matching.length : Int)).toNat < matching.length := by
    omega
  refine ⟨(matching.get ⟨(st.advance_index % (matching.length : Int)).toNat, h2⟩).path, ?_⟩
  have hne : (!matching.isEmpty) = true := by simp [h]
  unfold tickRead pyListGet
  rw [if_pos hne, dif_pos ⟨h0, h2⟩]
  rfl

theorem tickAdvance_not_due (st : AdvancementState)
    (matching : List ImageMeta) (now intv : ℚ) (mode : String) (n r : Int)
    (h : ¬ intv ≤ now - st.last_advance) :
    tickAdvance st matching now intv mode n r = Except.ok st := by
  unfold tickAdvance
  have hc : (!matching.isEmpty && decide (now - st.last_advance ≥ intv)) = false := by
    simp [ge_iff_le, h]
  rw [hc]
  rfl

theorem tickAdvance_cond_true {matching : List ImageMeta} {st : AdvancementState}
    {now intv : ℚ} (hm : matching ≠ [])
    (he : intv ≤ now - st.last_advance) :
    (!matching.isEmpty && decide (now - st.last_advance ≥ intv)) = true := by
  simp [hm, ge_iff_le, he]

theorem tickAdvance_seq (st : AdvancementState) (matching : List ImageMeta)
    (now intv : ℚ) (n r : Int) (hm : matching ≠ [])
    (he : intv ≤ now - st.last_advance) :
    tickAdvance st matching now intv SEQUENTIAL n r =
      Except.ok ⟨(st.advance_index + 1) % (matching.length : Int), now,
        st.smart_random_counter⟩ := by
  unfold tickAdvance
  rw [tickAdvance_cond_true hm he, if_pos rfl, if_neg (by decide),
    if_neg (by decide)]
  rfl

theorem tickAdvance_smart_jump (st : AdvancementState)
    (matching : List ImageMeta) (now intv : ℚ) (n r : Int)
    (hm : matching ≠ []) (he : intv ≤ now - st.last_advance)
    (hc : st.smart_random_counter + 1 ≥ n) :
    tickAdvance st matching now intv SMART_RANDOM n r =
      Except.ok ⟨(r + 1) % (matching.length : Int), now, 0⟩ := by
  unfold tickAdvance
  rw [tickAdvance_cond_true hm he, if_pos rfl, if_pos rfl, if_pos hc]
  rfl

theorem tickAdvance_smart_step (st : AdvancementState)
    (matching : List ImageMeta) (now intv : ℚ) (n r : Int)
    (hm : matching ≠ []) (he : intv ≤ now - st.last_advance)
    (hc : ¬ st.smart_random_counter + 1 ≥ n) :
    tickAdvance st matching now intv SMART_RANDOM n r =
      Except.ok ⟨(st.advance_index + 1) % (matching.length : Int), now,
        st.smart_random_counter + 1⟩ := by
  unfold tickAdvance
  rw [tickAdvance_cond_true hm he, if_pos rfl, if_pos rfl, if_neg hc]
  rfl

theorem tickAdvance_unknown_mode (st : AdvancementState)
    (matching : List ImageMeta) (now intv : ℚ) (mode : String) (n r : Int)
    (hm : matching ≠ []) (he : intv ≤ now - st.last_advance)
    (h1 : mode ≠ SMART_RANDOM) (h2 : mode ≠ SEQUENTIAL) :
    tickAdvance st matching now intv mode n r =
      Except.error ("Unknown advance_mode: " ++ mode
        ++ ". Expected sequential or smart_random.") := by
  unfold tickAdvance
  rw [tickAdvance_cond_true hm he, if_neg h1, if_pos h2]
  rfl

/-- C1: for every call of the advancement tick with a non-empty matching
list, whatever integer index the state carries (stale indices from a
previously longer list included) and whichever of the two configured
modes is active, the stored index is reduced modulo the current matching
length before being read, so the tick succeeds, reads in bounds, and
returns an index `idx` with `0 ≤ idx < len(matching)`. -/
theorem tick_index_in_bounds (st : AdvancementState)
    (matching : List ImageMeta) (now intv : ℚ) (mode : String) (n r : Int)
    (hm : matching ≠ [])
    (hmode : mode = SEQUENTIAL ∨ mode = SMART_RANDOM) :
    ∃ (st2 : AdvancementState) (p : String) (idx : Int),
      tick st matching now intv mode n r = .ok (st2, some p, idx) ∧
      0 ≤ idx ∧ idx < (matching.length : Int) ∧ st2.advance_index = idx := by
  have hlen : 0 < (matching.length : Int) := natCast_length_pos hm
  by_cases hdue : intv ≤ now - st.last_advance
  · rcases hmode with hmode | hmode
    · subst hmode
      obtain ⟨p, hread⟩ := tickRead_ok
        ⟨(st.advance_index + 1) % (matching.length : Int), now,
          st.smart_random_counter⟩ matching hm
      refine ⟨⟨((st.advance_index + 1) % (matching.length : Int))
            % (matching.length : Int), now, st.smart_random_counter⟩, p,
          ((st.advance_index + 1) % (matching.length : Int))
            % (matching.length : Int),
          ?_, Int.emod_nonneg _ (by omega), Int.emod_lt_of_pos _ hlen, rfl⟩
      unfold tick
      rw [tickAdvance_seq st matching now intv n r hm hdue]
      exact hread
    · subst hmode
      by_cases hc : st.smart_random_counter + 1 ≥ n
      · obtain ⟨p, hread⟩ := tickRead_ok
          ⟨(r + 1) % (matching.length : Int), now, 0⟩ matching hm
        refine ⟨⟨((r + 1) % (matching.length : Int))
              % (matching.length : Int), now, 0⟩, p,
            ((r + 1) % (matching.length : Int)) % (matching.length : Int),
            ?_, Int.emod_nonneg _ (by omega), Int.emod_lt_of_pos _ hlen, rfl⟩
        unfold tick
        rw [tickAdvance_smart_jump st matching now intv n r hm hdue hc]
        exact hread
      · obtain ⟨p, hread⟩ := tickRead_ok
          ⟨(st.advance_index + 1) % (matching.length : Int), now,
            st.smart_random_counter + 1⟩ matching hm
        refine ⟨⟨((st.advance_index + 1) % (matching.length : Int))
              % (matching.length : Int), now, st.smart_random_counter + 1⟩, p,
            ((st.advance_index + 1) % (matching.length : Int))
              % (matching.length : Int),
            ?_, Int.emod_nonneg _ (by omega), Int.emod_lt_of_pos _ hlen, rfl⟩
        unfold tick
        rw [tickAdvance_smart_step st matching now intv n r hm hdue hc]
        exact hread
  · obtain ⟨p, hread⟩ := tickRead_ok st matching hm
    refine ⟨⟨st.advance_index % (matching.length : Int), st.last_advance,
          st.smart_random_counter⟩, p,
        st.advance_index % (matching.length : Int),
        ?_, Int.emod_nonneg _ (by omega), Int.emod_lt_of_pos _ hlen, rfl⟩
    unfold tick
    rw [tickAdvance_not_due st matching now intv _ n r hdue]
    exact hread

/-- Witness for C1 at a concrete input: a stale index 4 against a
1-element matching list, sequential mode. -/
theorem tick_index_in_bounds_witness :
    ∃ (st2 : AdvancementState) (p : String) (idx : Int),
      tick ⟨4, 0, 0⟩ [itemB] 100 10 SEQUENTIAL 3 0 = .ok (st2, some p, idx) ∧
      0 ≤ idx ∧ idx < (([itemB] : List ImageMeta).length : Int) ∧
      st2.advance_index = idx :=
  tick_index_in_bounds ⟨4, 0, 0⟩ [itemB] 100 10 SEQUENTIAL 3 0
    (by decide) (Or.inl rfl)

/-- C9 counterexample: a tick invoked with the unrecognized mode
"bogus" while no advance is due (interval not yet elapsed) returns
normally instead of failing — the `ValueError` branch is only reached
when `matching_items` is non-empty and the interval has elapsed. -/
theorem tick_unknown_mode_ok_when_not_due :
    tick ⟨0, 0, 0⟩ [itemB] 0 10 "bogus" 3 0 =
      .ok (⟨0, 0, 0⟩, some "/media/b.jpg", 0) := by
  unfold tick
  rw [tickAdvance_not_due _ _ _ _ _ _ _ (by norm_num)]
  rfl

/-- C9 (amended): on any tick where an advance is due — the matching
list is non-empty and the interval has elapsed — an advancement mode
other than sequential or smart-random raises `ValueError` to the caller,
and no sequential-style advance is performed; on ticks where no advance
is due the unknown mode goes unnoticed and the tick returns normally. -/
theorem tick_unknown_mode_error (st : AdvancementState)
    (matching : List ImageMeta) (now intv : ℚ) (mode : String) (n r : Int)
    (hm : matching ≠ []) (he : intv ≤ now - st.last_advance)
    (h1 : mode ≠ SMART_RANDOM) (h2 : mode ≠ SEQUENTIAL) :
    tick st matching now intv mode n r =
      .error ("Unknown advance_mode: " ++ mode
        ++ ". Expected sequential or smart_random.") := by
  unfold tick
  rw [tickAdvance_unknown_mode st matching now intv mode n r hm he h1 h2]
  rfl

/-- Witness for the amended C9 theorem at a concrete input. -/
theorem tick_unknown_mode_error_witness :
    tick ⟨0, 0, 0⟩ [itemB] 100 10 "bogus" 3 0 =
      .error ("Unknown advance_mode: " ++ "bogus"
        ++ ". Expected sequential or smart_random.") :=
  tick_unknown_mode_error ⟨0, 0, 0⟩ [itemB] 100 10 "bogus" 3 0
    (by decide) (by norm_num) (by decide) (by decide)

/-! ### Smart-random mode (C4) -/

theorem except_bind_ok {α β : Type} (a : α) (f : α → Except String β) :
    (Except.ok a : Except String α).bind f = f a := rfl

/-- The path component the tick returns for a clamped index. -/
def pathOf (l : List ImageMeta) (i : Int) : Option String :=
  (l.get? i.toNat).map fun item => item.path

theorem pathOf_isSome (l : List ImageMeta) (i : Int) (h0 : 0 ≤ i)
    (h1 : i < (l.length : Int)) : ∃ p, pathOf l i = some p := by
  have h2 : i.toNat < l.length := by omega
  refine ⟨(l.get ⟨i.toNat, h2⟩).path, ?_⟩
  unfold pathOf
  rw [List.get?_eq_get h2]
  rfl

theorem emod_twice (a L : Int) : a % L % L = a % L :=
  Int.emod_emod_of_dvd a dvd_rfl

theorem tickRead_eq (st : AdvancementState) (matching : List ImageMeta)
    (h : matching ≠ []) :
    tickRead st matching =
      .ok ({ st with advance_index :=
               st.advance_index % (matching.length : Int) },
        pathOf matching (st.advance_index % (matching.length : Int)),
        st.advance_index % (matching.length : Int)) := by
  have hlen : 0 < (matching.length : Int) := natCast_length_pos h
  have h0 : 0 ≤ st.advance_index % (matching.length : Int) :=
    Int.emod_nonneg _ (by omega)
  have h2 : (st.advance_index % (matching.length : Int)).toNat
      < matching.length := by
    have := Int.emod_lt_of_pos st.advance_index hlen
    omega
  have hne : (!matching.isEmpty) = true := by simp [h]
  unfold tickRead pyListGet pathOf
  rw [if_pos hne, dif_pos ⟨h0, h2⟩, List.get?_eq_get h2]
  rfl

theorem tick_seq_eq (st : AdvancementState) (matching : List ImageMeta)
    (now intv : ℚ) (n r : Int) (hm : matching ≠ [])
    (he : intv ≤ now - st.last_advance) :
    tick st matching now intv SEQUENTIAL n r =
      .ok (⟨(st.advance_index + 1) % (matching.length : Int), now,
          st.smart_random_counter⟩,
        pathOf matching ((st.advance_index + 1) % (matching.length : Int)),
        (st.advance_index + 1) % (matching.length : Int)) := by
  unfold tick
  rw [tickAdvance_seq st matching now intv n r hm he, except_bind_ok,
    tickRead_eq _ _ hm]
  simp [emod_twice]

theorem tick_smart_jump_eq (st : AdvancementState)
    (matching : List ImageMeta) (now intv : ℚ) (n r : Int)
    (hm : matching ≠ []) (he : intv ≤ now - st.last_advance)
    (hc : st.smart_random_counter + 1 ≥ n) :
    tick st matching now intv SMART_RANDOM n r =
      .ok (⟨(r + 1) % (matching.length : Int), now, 0⟩,
        pathOf matching ((r + 1) % (matching.length : Int)),
        (r + 1) % (matching.length : Int)) := by
  unfold tick
  rw [tickAdvance_smart_jump st matching now intv n r hm he hc,
    except_bind_ok, tickRead_eq _ _ hm]
  simp [emod_twice]

theorem tick_smart_step_eq (st : AdvancementState)
    (matching : List ImageMeta) (now intv : ℚ) (n r : Int)
    (hm : matching ≠ []) (he : intv ≤ now - st.last_advance)
    (hc : ¬ st.smart_random_counter + 1 ≥ n) :
    tick st matching now intv SMART_RANDOM n r =
      .ok (⟨(st.advance_index + 1) % (matching.length : Int), now,
          st.smart_random_counter + 1⟩,
        pathOf matching ((st.advance_index + 1) % (matching.length : Int)),
        (st.advance_index + 1) % (matching.length : Int)) := by
  unfold tick
  rw [tickAdvance_smart_step st matching now intv n r hm he hc,
    except_bind_ok, tickRead_eq _ _ hm]
  simp [emod_twice]

theorem succ_emod_eq (L x : Int) (hx : 0 ≤ x) (hx2 : x < L) :
    (x + 1) % L = if x + 1 = L then 0 else x + 1 := by
  by_cases h : x + 1 = L
  · rw [if_pos h, h, Int.emod_self]
  · rw [if_neg h]
    exact Int.emod_eq_of_lt (by omega) (by omega)

theorem succ_emod_inj (L x y : Int) (hx : 0 ≤ x) (hx2 : x < L)
    (hy : 0 ≤ y) (hy2 : y < L)
    (h : (x + 1) % L = (y + 1) % L) : x = y := by
  rw [succ_emod_eq L x hx hx2, succ_emod_eq L y hy hy2] at h
  by_cases h1 : x + 1 = L
  · by_cases h2 : y + 1 = L
    · omega
    · rw [if_pos h1, if_neg h2] at h
      omega
  · by_cases h2 : y + 1 = L
    · rw [if_neg h1, if_pos h2] at h
      omega
    · rw [if_neg h1, if_neg h2] at h
      omega

theorem rand_for_target (L t : Int) (hL : 0 < L) (ht : 0 ≤ t) (ht2 : t < L) :
    (0 ≤ (t + L - 1) % L ∧ (t + L - 1) % L < L) ∧
    ((t + L - 1) % L + 1) % L = t := by
  refine ⟨⟨Int.emod_nonneg _ (by omega), Int.emod_lt_of_pos _ hL⟩, ?_⟩
  rw [Int.emod_add_emod]
  have h3 : t + L - 1 + 1 = t + L * 1 := by ring
  rw [h3, Int.add_mul_emod_self_left]
  exact Int.emod_eq_of_lt ht ht2

/-- Iterate `tick` over successive polls `(now, rand)`, feeding the
returned state back and collecting each returned `DATA_ADVANCE_INDEX`. -/
def tickRun (matching : List ImageMeta) (intv : ℚ) (mode : String)
    (n : Int) : AdvancementState → List (ℚ × Int) →
    Except String (AdvancementState × List Int)
  | st, [] => .ok (st, [])
  | st, (now, r) :: rest =>
    (tick st matching now intv mode n r).bind fun res =>
      (tickRun matching intv mode n res.1 rest).map fun out =>
        (out.1, res.2.2 :: out.2)

/-- Every poll in the list is due: each instant lies at least `intv`
after the previous one (which the previous due tick stamped into
`last_advance`). -/
def elapsedChain (last intv : ℚ) : List (ℚ × Int) → Prop
  | [] => True
  | (now, _) :: rest => intv ≤ now - last ∧ elapsedChain now intv rest

theorem seq_walk_shift (a L J : Int) (m : ℕ) :
    (a + 1) % L ::
      (((List.range m).map
          fun k : ℕ => ((a + 1) % L + (k : Int) + 1) % L) ++ [J]) =
    ((List.range (m + 1)).map
        fun k : ℕ => (a + (k : Int) + 1) % L) ++ [J] := by
  rw [List.range_succ_eq_map, List.map_cons, List.map_map, List.cons_append]
  congr 2
  · simp
  · congr 1
    funext k
    simp only [Function.comp]
    rw [add_assoc ((a + 1) % L) (k : Int) 1, Int.emod_add_emod]
    congr 1
    push_cast
    ring

theorem tickRun_smart (matching : List ImageMeta) (intv : ℚ) (n : Int)
    (hm : matching ≠ []) :
    ∀ (ticks : List (ℚ × Int)) (st : AdvancementState),
      elapsedChain st.last_advance intv ticks →
      st.smart_random_counter + ticks.length = n →
      ticks ≠ [] →
      ∃ tN : ℚ × Int,
        ticks.getLast? = some tN ∧
        tickRun matching intv SMART_RANDOM n st ticks =
          .ok (⟨(tN.2 + 1) % (matching.length : Int), tN.1, 0⟩,
            ((List.range (ticks.length - 1)).map
              fun k : ℕ =>
                (st.advance_index + (k : Int) + 1) % (matching.length : Int))
            ++ [(tN.2 + 1) % (matching.length : Int)]) := by
  intro ticks
  induction ticks with
  | nil => intro st _ _ hne; exact absurd rfl hne
  | cons hd rest ih =>
    intro st hchain hcount _
    obtain ⟨now, r⟩ := hd
    obtain ⟨h1, hrest⟩ := hchain
    rcases eq_or_ne rest [] with hre | hre
    · subst hre
      have hc : st.smart_random_counter + 1 ≥ n := by
        simp at hcount
        omega
      refine ⟨(now, r), rfl, ?_⟩
      simp only [tickRun]
      rw [tick_smart_jump_eq st matching now intv n r hm h1 hc,
        except_bind_ok]
      simp [tickRun, Except.map]
    · have hlenr : 1 ≤ rest.length := List.length_pos.mpr hre
      have hc : ¬ st.smart_random_counter + 1 ≥ n := by
        simp only [List.length_cons] at hcount
        push_cast at hcount
        omega
      obtain ⟨tN, hlast, hrun⟩ :=
        ih ⟨(st.advance_index + 1) % (matching.length : Int), now,
              st.smart_random_counter + 1⟩
          hrest
          (by
            simp only [List.length_cons] at hcount
            push_cast at hcount ⊢
            omega)
          hre
      dsimp only at hrun
      refine ⟨tN, ?_, ?_⟩
      · obtain ⟨t2, rest2, rfl⟩ := List.exists_cons_of_ne_nil hre
        rw [List.getLast?_cons_cons]
        exact hlast
      · simp only [tickRun]
        rw [tick_smart_step_eq st matching now intv n r hm h1 hc,
          except_bind_ok, hrun]
        simp only [Except.map, List.length_cons, Nat.add_sub_cancel]
        obtain ⟨m, hm2⟩ : ∃ m, rest.length = m + 1 :=
          ⟨rest.length - 1, by omega⟩
        rw [hm2]
        simp only [Nat.add_sub_cancel]
        rw [seq_walk_shift]

/-- C4: in smart-random mode every due tick (non-empty matching list,
interval elapsed) increments the mode counter.  When the incremented
counter reaches `sequence_length`, the code sets the index to the random
draw, resets the counter to 0, and then the shared `(index + 1) mod len`
step runs, so the tick lands on `(rand + 1) mod len` — uniformly
distributed on `[0, len)` exactly when `rand` is (the landing map is a
bijection: every target index has exactly one preimage draw, witnessed
in the second conjunct).  Otherwise — and only otherwise — the tick
returns exactly the index, path and timestamp of a sequential-mode tick,
differing only in the stored mode counter.  Consequently over `N`
consecutive due ticks starting from counter 0, the first `N - 1`
returned indices advance sequentially from the starting index and
exactly the final tick jumps, leaving the counter at 0 again. -/
theorem tick_smart_random_spec (matching : List ImageMeta)
    (st : AdvancementState) (now intv : ℚ) (n r : Int)
    (hm : matching ≠ []) :
    (intv ≤ now - st.last_advance → ¬ st.smart_random_counter + 1 ≥ n →
      tick st matching now intv SMART_RANDOM n r =
        .ok (⟨(st.advance_index + 1) % (matching.length : Int), now,
            st.smart_random_counter + 1⟩,
          pathOf matching ((st.advance_index + 1) % (matching.length : Int)),
          (st.advance_index + 1) % (matching.length : Int)) ∧
      tick st matching now intv SEQUENTIAL n r =
        .ok (⟨(st.advance_index + 1) % (matching.length : Int), now,
            st.smart_random_counter⟩,
          pathOf matching ((st.advance_index + 1) % (matching.length : Int)),
          (st.advance_index + 1) % (matching.length : Int))) ∧
    (intv ≤ now - st.last_advance → st.smart_random_counter + 1 ≥ n →
      tick st matching now intv SMART_RANDOM n r =
        .ok (⟨(r + 1) % (matching.length : Int), now, 0⟩,
          pathOf matching ((r + 1) % (matching.length : Int)),
          (r + 1) % (matching.length : Int)) ∧
      (∀ t : Int, 0 ≤ t → t < (matching.length : Int) →
        ∃! r2 : Int, (0 ≤ r2 ∧ r2 < (matching.length : Int)) ∧
          ∃ (st2 : AdvancementState) (p : Option String),
            tick st matching now intv SMART_RANDOM n r2 =
              .ok (st2, p, t))) ∧
    (∀ ticks : List (ℚ × Int),
      st.smart_random_counter = 0 →
      elapsedChain st.last_advance intv ticks →
      (ticks.length : Int) = n →
      ticks ≠ [] →
      ∃ tN : ℚ × Int,
        ticks.getLast? = some tN ∧
        tickRun matching intv SMART_RANDOM n st ticks =
          .ok (⟨(tN.2 + 1) % (matching.length : Int), tN.1, 0⟩,
            ((List.range (ticks.length - 1)).map
              fun k : ℕ =>
                (st.advance_index + (k : Int) + 1) % (matching.length : Int))
            ++ [(tN.2 + 1) % (matching.length : Int)])) := by
  have hlen : 0 < (matching.length : Int) := natCast_length_pos hm
  refine ⟨?_, ?_, ?_⟩
  · intro he hc
    exact ⟨tick_smart_step_eq st matching now intv n r hm he hc,
      tick_seq_eq st matching now intv n r hm he⟩
  · intro he hc
    refine ⟨tick_smart_jump_eq st matching now intv n r hm he hc, ?_⟩
    intro t ht ht2
    obtain ⟨⟨hr0, hr1⟩, hrt⟩ :=
      rand_for_target (matching.length : Int) t hlen ht ht2
    refine ⟨(t + (matching.length : Int) - 1) % (matching.length : Int),
      ⟨⟨hr0, hr1⟩, ⟨⟨t, now, 0⟩, pathOf matching t, ?_⟩⟩, ?_⟩
    · rw [tick_smart_jump_eq st matching now intv n _ hm he hc, hrt]
    · rintro y ⟨⟨hy0, hy1⟩, st2, p, hy⟩
      rw [tick_smart_jump_eq st matching now intv n y hm he hc] at hy
      have h3 := congrArg (fun z => z.2.2) (Except.ok.inj hy)
      dsimp at h3
      exact succ_emod_inj (matching.length : Int) y
        ((t + (matching.length : Int) - 1) % (matching.length : Int))
        hy0 hy1 hr0 hr1 (h3.trans hrt.symm)
  · intro ticks hc0 hchain hlen2 hne
    exact tickRun_smart matching intv n hm ticks st hchain
      (by rw [hc0, zero_add]; exact hlen2) hne

/-- Witness for C4 at a concrete input: three matching items,
`sequence_length = 2`, two due ticks from counter 0; the first advances
sequentially, the second jumps on the draw 1 and lands on index 2. -/
theorem tick_smart_random_spec_witness :
    ∃ tN : ℚ × Int,
      ([((1 : ℚ), (0 : Int)), ((2 : ℚ), (1 : Int))].getLast? = some tN) ∧
      tickRun [itemA, itemB, itemNeg] 1 SMART_RANDOM 2 ⟨0, 0, 0⟩
          [(1, 0), (2, 1)] =
        .ok (⟨(tN.2 + 1) %
              (([itemA, itemB, itemNeg] : List ImageMeta).length : Int),
            tN.1, 0⟩,
          ((List.range ([((1 : ℚ), (0 : Int)), ((2 : ℚ), (1 : Int))].length
              - 1)).map
            fun k : ℕ => ((0 : Int) + (k : Int) + 1) %
              (([itemA, itemB, itemNeg] : List ImageMeta).length : Int))
          ++ [(tN.2 + 1) %
              (([itemA, itemB, itemNeg] : List ImageMeta).length : Int)]) :=
  (tick_smart_random_spec [itemA, itemB, itemNeg] ⟨0, 0, 0⟩ 0 1 2 0
    (by decide)).2.2 [(1, 0), (2, 1)] rfl
    (by simp only [elapsedChain]; norm_num)
    (by decide) (by decide)

end MSH
